import Mathlib

/-!
Shallow embedding of the `aria` agent core: the Anthropic streaming-response
aggregator (`src/providers/src/anthropic/models.rs`, `StreamProcessor::process_events`),
the generic stream-event layer (`src/providers/src/models.rs`), and the
conversation graph (`src/agent/src/graph/{iter.rs, models.rs, nodes/*.rs}`).

Rust `HashMap<usize, V>` values are embedded as association lists with
no duplicate keys (`mapInsert` replaces the entry for an existing key,
exactly as `HashMap::insert` does); since the source only ever reads the
final map through a sort by key, iteration order is irrelevant.
`serde_json::Value` is embedded as the inductive `Json`; `serde_json::from_str`
is an external library function and is passed as an explicit parameter
`parse : String → Except String Json`.
-/

namespace Aria

/-- Embedding of `serde_json::Value`. -/
inductive Json where
  | null : Json
  | bool (b : Bool) : Json
  | num (n : Int) : Json
  | str (s : String) : Json
  | arr (items : List Json) : Json
  | obj (fields : List (String × Json)) : Json

/-- `tools::models::ToolName`. -/
inductive ToolName where
  | readFile | writeFile | listFiles | tree | runCommand
deriving DecidableEq, Repr

/-- `TryFrom<String> for ToolName` (`tools/src/models.rs`); the error string is
the `Display` rendering of `ToolError::InvalidToolName`. -/
def ToolName.tryFromString (value : String) : Except String ToolName :=
  match value with
  | "read_file" => .ok .readFile
  | "write_file" => .ok .writeFile
  | "list_files" => .ok .listFiles
  | "tree" => .ok .tree
  | "run_command" => .ok .runCommand
  | _ => .error ("Invalid tool name: " ++ value)

/-- `providers::models::Role`. -/
inductive Role where
  | user | assistant
deriving DecidableEq, Repr

/-- `providers::anthropic::models::AnthropicRole`. -/
inductive AnthropicRole where
  | user | assistant
deriving DecidableEq, Repr

/-- `TryFrom<AnthropicRole> for Role` (total). -/
def AnthropicRole.toRole : AnthropicRole → Role
  | .user => .user
  | .assistant => .assistant

/-- `providers::models::StopReason`. -/
inductive StopReason where
  | endTurn | maxTokens | stopSequence | toolUse
deriving DecidableEq, Repr

/-- `providers::anthropic::models::AnthropicStopReason`. -/
inductive AnthropicStopReason where
  | endTurn | maxTokens | stopSequence | toolUse
deriving DecidableEq, Repr

/-- `TryFrom<AnthropicStopReason> for StopReason` (total). -/
def AnthropicStopReason.toStopReason : AnthropicStopReason → StopReason
  | .endTurn => .endTurn
  | .maxTokens => .maxTokens
  | .stopSequence => .stopSequence
  | .toolUse => .toolUse

/-- `TryFrom<StopReason> for AnthropicStopReason` (total). -/
def StopReason.toAnthropic : StopReason → AnthropicStopReason
  | .endTurn => .endTurn
  | .maxTokens => .maxTokens
  | .stopSequence => .stopSequence
  | .toolUse => .toolUse

/-- `providers::models::Usage` and `AnthropicUsage` (identical field lists;
the `TryFrom` conversions between them are field-for-field copies). -/
structure Usage where
  input_tokens : Nat
  output_tokens : Nat
  cache_creation_input_tokens : Nat
  cache_read_input_tokens : Nat
deriving DecidableEq, Repr

/-- `providers::anthropic::models::AnthropicUsage`. -/
structure AnthropicUsage where
  input_tokens : Nat
  output_tokens : Nat
  cache_creation_input_tokens : Nat
  cache_read_input_tokens : Nat
deriving DecidableEq, Repr

/-- `TryFrom<AnthropicUsage> for Usage` (total). -/
def AnthropicUsage.toUsage (u : AnthropicUsage) : Usage :=
  { input_tokens := u.input_tokens
    output_tokens := u.output_tokens
    cache_creation_input_tokens := u.cache_creation_input_tokens
    cache_read_input_tokens := u.cache_read_input_tokens }

/-- `TryFrom<Usage> for AnthropicUsage` (total). -/
def Usage.toAnthropic (u : Usage) : AnthropicUsage :=
  { input_tokens := u.input_tokens
    output_tokens := u.output_tokens
    cache_creation_input_tokens := u.cache_creation_input_tokens
    cache_read_input_tokens := u.cache_read_input_tokens }

/-- `providers::anthropic::models::AnthropicResponseContentBlock`. -/
inductive AnthropicResponseContentBlock where
  | text (text : String)
  | toolUse (id : String) (name : ToolName) (input : Json)

/-- `providers::models::ResponseContentBlock`. -/
inductive ResponseContentBlock where
  | text (text : String)
  | toolUse (id : String) (name : ToolName) (input : Json)

/-- `TryFrom<AnthropicResponseContentBlock> for ResponseContentBlock` (total). -/
def AnthropicResponseContentBlock.toGeneric :
    AnthropicResponseContentBlock → ResponseContentBlock
  | .text t => .text t
  | .toolUse id name input => .toolUse id name input

/-- `TryFrom<ResponseContentBlock> for AnthropicResponseContentBlock` (total). -/
def ResponseContentBlock.toAnthropic :
    ResponseContentBlock → AnthropicResponseContentBlock
  | .text t => .text t
  | .toolUse id name input => .toolUse id name input

/-- `providers::models::Response`. -/
structure Response where
  id : String
  type : String
  role : Role
  model : String
  content : List ResponseContentBlock
  stop_reason : Option StopReason
  stop_sequence : Option String
  usage : Option Usage

/-- `providers::anthropic::models::AnthropicContentBlockStartData`. -/
inductive AnthropicContentBlockStartData where
  | text (text : String)
  | toolUse (id : String) (name : String) (input : Json)
  | thinking (thinking : String)

/-- `providers::anthropic::models::AnthropicContentDelta`; the field named
`partial_json` in the source is spelled `partJson` here. -/
inductive AnthropicContentDelta where
  | textDelta (text : String)
  | inputJsonDelta (partJson : String)
  | thinkingDelta (thinking : String)
  | signatureDelta (signature : String)

/-- `providers::anthropic::models::AnthropicMessageStartData`. -/
structure AnthropicMessageStartData where
  id : String
  type : String
  role : AnthropicRole
  model : String
  content : List AnthropicResponseContentBlock
  stop_reason : Option AnthropicStopReason
  stop_sequence : Option String
  usage : Option AnthropicUsage

/-- `providers::anthropic::models::AnthropicMessageDeltaData`. -/
structure AnthropicMessageDeltaData where
  stop_reason : Option AnthropicStopReason
  stop_sequence : Option String

/-- `providers::anthropic::models::AnthropicStreamErrorData`. -/
structure AnthropicStreamErrorData where
  error_type : String
  message : String
deriving DecidableEq, Repr

/-- `providers::anthropic::models::AnthropicStreamEvent`. -/
inductive AnthropicStreamEvent where
  | messageStart (message : AnthropicMessageStartData)
  | contentBlockStart (index : Nat) (content_block : AnthropicContentBlockStartData)
  | contentBlockDelta (index : Nat) (delta : AnthropicContentDelta)
  | contentBlockStop (index : Nat)
  | messageDelta (delta : AnthropicMessageDeltaData) (usage : Option AnthropicUsage)
  | messageStop
  | ping
  | error (error : AnthropicStreamErrorData)

/-! Association-list embedding of `std::collections::HashMap<usize, V>`. -/

/-- Lookup, as `HashMap::get`. -/
def mapFind {α : Type} (k : Nat) : List (Nat × α) → Option α
  | [] => none
  | (k', v) :: rest => if k' = k then some v else mapFind k rest

/-- Insert-or-replace, as `HashMap::insert`. -/
def mapInsert {α : Type} (k : Nat) (v : α) : List (Nat × α) → List (Nat × α)
  | [] => [(k, v)]
  | (k', v') :: rest =>
      if k' = k then (k, v) :: rest else (k', v') :: mapInsert k v rest

/-- Key removal, as the removal part of `HashMap::remove`. -/
def mapErase {α : Type} (k : Nat) : List (Nat × α) → List (Nat × α)
  | [] => []
  | (k', v') :: rest =>
      if k' = k then rest else (k', v') :: mapErase k rest

/-- The keys of an association list. -/
def mapKeys {α : Type} (m : List (Nat × α)) : List Nat := m.map Prod.fst

/-- Mutable accumulator state of `AnthropicStreamEvent::process_events`
(the local variables of the Rust function). -/
structure AggState where
  id : String
  model : String
  role : AnthropicRole
  stop_reason : Option AnthropicStopReason
  stop_sequence : Option String
  usage : AnthropicUsage
  content_blocks : List (Nat × AnthropicResponseContentBlock)
  json_buffers : List (Nat × String)

/-- Initial values of the accumulator variables in `process_events`. -/
def initAggState : AggState :=
  { id := ""
    model := ""
    role := .assistant
    stop_reason := none
    stop_sequence := none
    usage := ⟨0, 0, 0, 0⟩
    content_blocks := []
    json_buffers := [] }

/-- One iteration of the `for event in events` loop of
`AnthropicStreamEvent::process_events` (`anthropic/models.rs:655-735`).
`parse` stands for `serde_json::from_str::<serde_json::Value>`. -/
def processEvent (parse : String → Except String Json) (st : AggState) :
    AnthropicStreamEvent → Except String AggState
  | .messageStart message =>
      .ok { st with
        id := message.id
        model := message.model
        role := message.role
        usage := match message.usage with
          | some event_usage => event_usage
          | none => st.usage }
  | .contentBlockStart index content_block =>
      match content_block with
      | .text text =>
          .ok { st with content_blocks := mapInsert index (.text text) st.content_blocks }
      | .toolUse id name input =>
          match ToolName.tryFromString name with
          | .error e => .error e
          | .ok n =>
              .ok { st with
                content_blocks := mapInsert index (.toolUse id n input) st.content_blocks }
      | .thinking _ => .ok st
  | .contentBlockDelta index delta =>
      match delta with
      | .textDelta text =>
          match mapFind index st.content_blocks with
          | some (.text existing_text) =>
              .ok { st with
                content_blocks :=
                  mapInsert index (.text (existing_text ++ text)) st.content_blocks }
          | _ =>
              .ok { st with content_blocks := mapInsert index (.text text) st.content_blocks }
      | .inputJsonDelta partJson =>
          match mapFind index st.json_buffers with
          | some e => .ok { st with json_buffers := mapInsert index (e ++ partJson) st.json_buffers }
          | none => .ok { st with json_buffers := mapInsert index partJson st.json_buffers }
      | .thinkingDelta _ => .ok st
      | .signatureDelta _ => .ok st
  | .contentBlockStop index =>
      match mapFind index st.json_buffers with
      | some json_string =>
          let st' := { st with json_buffers := mapErase index st.json_buffers }
          match mapFind index st'.content_blocks with
          | some (AnthropicResponseContentBlock.toolUse id name _) =>
              match parse json_string with
              | .ok json_value =>
                  .ok { st' with
                    content_blocks :=
                      mapInsert index (.toolUse id name json_value) st'.content_blocks }
              | .error e => .error ("Failed to parse JSON: " ++ e)
          | _ => .ok st'
      | none => .ok st
  | .messageDelta delta delta_usage =>
      .ok { st with
        stop_reason := delta.stop_reason
        stop_sequence := delta.stop_sequence
        usage := match delta_usage with
          | some u => u
          | none => st.usage }
  | .messageStop => .ok st
  | .ping => .ok st
  | .error _ => .ok st

/-- The whole event loop of `process_events`, starting from state `st`. -/
def processEventsFrom (parse : String → Except String Json) (st : AggState) :
    List AnthropicStreamEvent → Except String AggState
  | [] => .ok st
  | e :: rest =>
      match processEvent parse st e with
      | .error msg => .error msg
      | .ok st' => processEventsFrom parse st' rest

/-- Insert an entry into a list sorted by key (helper for `sortByIndex`). -/
def insertSorted {α : Type} (p : Nat × α) : List (Nat × α) → List (Nat × α)
  | [] => [p]
  | q :: rest => if p.1 ≤ q.1 then p :: q :: rest else q :: insertSorted p rest

/-- Sorting the collected blocks by index, as
`sorted_blocks.sort_by_key(|(index, _)| *index)`; on duplicate-free keys this
produces the same sequence as any sort by key. -/
def sortByIndex {α : Type} : List (Nat × α) → List (Nat × α)
  | [] => []
  | p :: rest => insertSorted p (sortByIndex rest)

/-- The `Ok(Response { .. })` built at the end of `process_events`
(`anthropic/models.rs:737-757`); every `TryInto` used there is total. -/
def finalizeResponse (st : AggState) : Response :=
  { id := st.id
    type := "message"
    role := st.role.toRole
    model := st.model
    content :=
      (sortByIndex st.content_blocks).map
        (fun p => p.2.toGeneric)
    stop_reason := st.stop_reason.map AnthropicStopReason.toStopReason
    stop_sequence := st.stop_sequence
    usage := some st.usage.toUsage }

/-- `impl StreamProcessor<AnthropicStreamEvent> for AnthropicStreamEvent`,
`process_events` (`anthropic/models.rs:632-758`). -/
def AnthropicStreamEvent.process_events (parse : String → Except String Json)
    (events : List AnthropicStreamEvent) : Except String Response :=
  match processEventsFrom parse initAggState events with
  | .error e => .error e
  | .ok st => .ok (finalizeResponse st)

/-! Generic stream-event layer (`providers/src/models.rs`). -/

/-- `providers::models::ContentDelta`; the field named `partial_json` in the
source is spelled `partJson` here. -/
inductive ContentDelta where
  | textDelta (text : String)
  | inputJsonDelta (partJson : String)
  | thinkingDelta (thinking : String)
  | signatureDelta (signature : String)

/-- `providers::models::ContentBlockStartData`. -/
inductive ContentBlockStartData where
  | text (text : String)
  | toolUse (id : String) (name : String) (input : Json)
  | thinking (thinking : String)

/-- `providers::models::MessageStartData`. -/
structure MessageStartData where
  id : String
  type : String
  role : Role
  model : String
  content : List ResponseContentBlock
  stop_reason : Option StopReason
  stop_sequence : Option String
  usage : Option Usage

/-- `providers::models::MessageDeltaData`. -/
structure MessageDeltaData where
  stop_reason : Option StopReason
  stop_sequence : Option String

/-- `providers::models::StreamErrorData`. -/
structure StreamErrorData where
  error_type : String
  message : String
deriving DecidableEq, Repr

/-- `providers::models::StreamEvent`. -/
inductive StreamEvent where
  | messageStart (message : MessageStartData)
  | contentBlockStart (index : Nat) (content_block : ContentBlockStartData)
  | contentBlockDelta (index : Nat) (delta : ContentDelta)
  | contentBlockStop (index : Nat)
  | messageDelta (delta : MessageDeltaData) (usage : Option Usage)
  | messageStop
  | ping
  | error (error : StreamErrorData)

/-- `TryFrom<Role> for AnthropicRole` (total). -/
def Role.toAnthropic : Role → AnthropicRole
  | .user => .user
  | .assistant => .assistant

/-- The generic-to-Anthropic event conversion performed inside
`impl StreamProcessor<StreamEvent> for StreamEvent` (`anthropic/models.rs:761-862`);
every `TryInto` used there is total, so the Rust `Result` is always `Ok`. -/
def StreamEvent.toAnthropic : StreamEvent → AnthropicStreamEvent
  | .messageStart message =>
      .messageStart
        { id := message.id
          type := message.type
          role := message.role.toAnthropic
          model := message.model
          content := message.content.map ResponseContentBlock.toAnthropic
          stop_reason := message.stop_reason.map StopReason.toAnthropic
          stop_sequence := message.stop_sequence
          usage := message.usage.map Usage.toAnthropic }
  | .contentBlockStart index content_block =>
      .contentBlockStart index
        (match content_block with
         | .text text => .text text
         | .toolUse id name input => .toolUse id name input
         | .thinking thinking => .thinking thinking)
  | .contentBlockDelta index delta =>
      .contentBlockDelta index
        (match delta with
         | .textDelta text => .textDelta text
         | .inputJsonDelta pj => .inputJsonDelta pj
         | .thinkingDelta thinking => .thinkingDelta thinking
         | .signatureDelta signature => .signatureDelta signature)
  | .contentBlockStop index => .contentBlockStop index
  | .messageDelta delta usage =>
      .messageDelta
        { stop_reason := delta.stop_reason.map StopReason.toAnthropic
          stop_sequence := delta.stop_sequence }
        (usage.map Usage.toAnthropic)
  | .messageStop => .messageStop
  | .ping => .ping
  | .error e => .error { error_type := e.error_type, message := e.message }

/-- `impl StreamProcessor<StreamEvent> for StreamEvent`, `process_events`
(`anthropic/models.rs:761-867`): convert every generic event to an Anthropic
event, then run `AnthropicStreamEvent::process_events`. -/
def StreamEvent.process_events (parse : String → Except String Json)
    (events : List StreamEvent) : Except String Response :=
  AnthropicStreamEvent.process_events parse (events.map StreamEvent.toAnthropic)

/-! Conversation graph (`src/agent/src/graph/`). -/

/-- `providers::models::ContentBlock`. -/
inductive ContentBlock where
  | toolResult (tool_use_id : String) (content : String)
  | text (text : String)
  | toolUse (id : String) (name : ToolName) (input : Json)

/-- `providers::models::Message`. -/
structure Message where
  role : Role
  content : List ContentBlock

/-- `TryFrom<ResponseContentBlock> for ContentBlock` (total,
`providers/src/models.rs:39-48`). -/
def ResponseContentBlock.toContentBlock : ResponseContentBlock → ContentBlock
  | .text t => .text t
  | .toolUse id name input => .toolUse id name input

/-- `TryFrom<Response> for Message` (`providers/src/models.rs:66-79`):
role `Assistant`, content converted block by block (total). -/
def Response.toMessage (response : Response) : Message :=
  { role := .assistant
    content := response.content.map ResponseContentBlock.toContentBlock }

/-- `agent::graph::models::GraphError`; `Other(anyhow::Error)` carries the
rendered error message. -/
inductive GraphError where
  | maxTokens
  | toolNotImplemented (tool : String)
  | invalidStateTransition (msg : String)
  | other (msg : String)
deriving DecidableEq, Repr

/-- `agent::graph::models::NodeTransition`. -/
inductive NodeTransition where
  | toUserRequest | toModelRequest | toCallTools | toEnd | terminal
deriving DecidableEq, Repr

/-- `agent::graph::models::CurrentNode` (`End` is spelled `endNode`). -/
inductive CurrentNode where
  | start | userRequest | modelRequest | callTools | endNode
deriving DecidableEq, Repr

/-- String-keyed insert-or-replace, as `HashMap::<String, String>::insert`. -/
def mapInsertStr (k v : String) : List (String × String) → List (String × String)
  | [] => [(k, v)]
  | (k', v') :: rest =>
      if k' = k then (k, v) :: rest else (k', v') :: mapInsertStr k v rest

/-- `agent::graph::models::State` (`message_history`, `current_user_prompt`,
`tool_outputs`). -/
structure State where
  message_history : List Message
  current_user_prompt : String
  tool_outputs : List (String × String)

/-- `tools::models::ToolResult`, with `content` embedded as its `Display`
rendering (the string produced by `format!` in `call_tools.rs`). -/
structure ToolResult where
  is_error : Bool
  content : String

/-- `Start::run` (`nodes/start.rs`): push the initial user message, transition
to `ToUserRequest`. The returned pair is (state after the `&mut` borrow,
run result). -/
def startRun (st : State) : State × Except GraphError NodeTransition :=
  ({ st with
      message_history :=
        st.message_history ++ [{ role := .user, content := [.text st.current_user_prompt] }] },
   .ok .toUserRequest)

/-- `End::run` (`nodes/end.rs`): no state change, `Terminal`. -/
def endRun (st : State) : State × Except GraphError NodeTransition :=
  (st, .ok .terminal)

/-- `ModelRequest::run` (`nodes/model_request.rs:21-87`). The provider stream
is an external capability; `streamEvents` is the outcome of creating the
stream and draining it (`.error` when stream creation fails or any event is
an `Err`, otherwise the collected event list). -/
def modelRequestRun (parse : String → Except String Json)
    (streamEvents : Except String (List StreamEvent)) (st : State) :
    State × Except GraphError NodeTransition :=
  match streamEvents with
  | .error e => (st, .error (.other e))
  | .ok events =>
      match StreamEvent.process_events parse events with
      | .error e => (st, .error (.other ("Failed to process stream events: " ++ e)))
      | .ok response =>
          let st' := { st with
            message_history := st.message_history ++ [response.toMessage] }
          match response.stop_reason with
          | some .maxTokens => (st', .error .maxTokens)
          | some .toolUse => (st', .ok .toCallTools)
          | _ => (st', .ok .toEnd)

/-- External inputs of a `CallTools::run` step: whether `deps.tools` is
`Some`, and the outcome of `execute_tool` for the selected block (tool lookup,
input deserialization and tool execution are external side effects of
`call_tools.rs::execute_tool`; its `content` is the displayed text). -/
structure CallToolsEnv where
  tools_available : Bool
  execute : ToolName → Json → Except String ToolResult

/-- The `for content_block in &last_msg.content` loop of `CallTools::run`
(`nodes/call_tools.rs:33-75`). -/
def callToolsStep (env : CallToolsEnv) (st : State) :
    List ContentBlock → State × Except GraphError NodeTransition
  | [] =>
      (st, .error (.invalidStateTransition "No tool use request found in the last message"))
  | ContentBlock.toolUse id name input :: _ =>
      if env.tools_available then
        match env.execute name input with
        | .error e => (st, .error (.other e))
        | .ok tool_result =>
            let result_content :=
              if tool_result.is_error then "Error: " ++ tool_result.content
              else tool_result.content
            ({ st with
                tool_outputs := mapInsertStr id result_content st.tool_outputs
                message_history :=
                  st.message_history ++
                    [{ role := .user, content := [.toolResult id result_content] }] },
             .ok .toModelRequest)
      else (st, .error (.other "No tools available in the agent's dependencies"))
  | _ :: rest => callToolsStep env st rest

/-- `CallTools::run` (`nodes/call_tools.rs:14-76`). -/
def callToolsRun (env : CallToolsEnv) (st : State) :
    State × Except GraphError NodeTransition :=
  match st.message_history.getLast? with
  | none => (st, .error (.other "No messages in history"))
  | some last_msg =>
      if last_msg.role = .assistant then callToolsStep env st last_msg.content
      else (st, .error (.invalidStateTransition "Last message is not from assistant"))

/-- The mutable fields of `GraphIter` (`iter.rs:6-12`); `deps` is carried by
`NodeEnv` instead. -/
structure GraphIterState where
  state : State
  current_node : CurrentNode
  finished : Bool
  result : Option String

/-- External dependencies of one `GraphIter::next` invocation: the JSON
parser, the provider stream outcome consumed by `ModelRequest::run`, the
tool-execution environment of `CallTools::run`, and the behavior of
`UserRequest::run`. `UserRequest::run` (`nodes/user_request.rs`) calls the
provider's `send_prompt` capability; per its source, on success it returns
`Ok(ToCallTools)` (stop reason `ToolUse`) or `Ok(ToEnd)` (any other stop
reason), and `Err(MaxTokens)` on a `MaxTokens` stop reason — it never
returns `Ok(ToModelRequest)`. Its message push targets a `messages` field
that does not exist on `graph::models::State`, so it leaves the embedded
`State` unchanged; the whole run outcome is supplied here as an oracle. -/
structure NodeEnv where
  parse : String → Except String Json
  streamEvents : Except String (List StreamEvent)
  callTools : CallToolsEnv
  userRequestRun : State → State × Except GraphError NodeTransition

/-- `self.result` update performed in the `CurrentNode::End` arm of
`GraphIter::next` (`iter.rs:116-134`): if the last message exists and has
role `Assistant`, the first `Text` block of its content becomes the result;
otherwise `result` is left as it was. -/
def firstText : List ContentBlock → Option String
  | [] => none
  | ContentBlock.text t :: _ => some t
  | _ :: rest => firstText rest

/-- `GraphIter::next` (`iter.rs:39-138`), returning the updated iterator
state together with the Rust return value (`None` when already finished,
otherwise `Some(result.map(|_| current_node))`). -/
def iterNext (env : NodeEnv) (g : GraphIterState) :
    GraphIterState × Option (Except GraphError CurrentNode) :=
  if g.finished then (g, none)
  else
    match g.current_node with
    | .start =>
        let (st', r) := startRun g.state
        let g' := { g with state := st', current_node := .userRequest }
        (g', some (r.map fun _ => CurrentNode.userRequest))
    | .userRequest =>
        let (st', r) := env.userRequestRun g.state
        match r with
        | .ok .toModelRequest =>
            ({ g with state := st', current_node := .modelRequest },
             some (.ok .modelRequest))
        | .ok _ =>
            ({ g with state := st' },
             some (.error (.invalidStateTransition "Invalid transition from UserRequest")))
        | .error e =>
            ({ g with state := st', finished := true }, some (.error e))
    | .modelRequest =>
        let (st', r) := modelRequestRun env.parse env.streamEvents g.state
        match r with
        | .ok .toCallTools =>
            ({ g with state := st', current_node := .callTools },
             some (.ok .callTools))
        | .ok .toEnd =>
            ({ g with state := st', current_node := .endNode },
             some (.ok .endNode))
        | .ok _ =>
            ({ g with state := st' },
             some (.error (.invalidStateTransition "Invalid transition from ModelRequest")))
        | .error e =>
            ({ g with state := st', finished := true }, some (.error e))
    | .callTools =>
        let (st', r) := callToolsRun env.callTools g.state
        match r with
        | .ok .toModelRequest =>
            ({ g with state := st', current_node := .modelRequest },
             some (.ok .modelRequest))
        | .ok .toEnd =>
            ({ g with state := st', current_node := .endNode },
             some (.ok .endNode))
        | .ok _ =>
            ({ g with state := st' },
             some (.error (.invalidStateTransition "Invalid transition from CallTools")))
        | .error e =>
            ({ g with state := st', finished := true }, some (.error e))
    | .endNode =>
        let (st', r) := endRun g.state
        let result' :=
          match st'.message_history.getLast? with
          | some last_message =>
              if last_message.role = .assistant then
                match firstText last_message.content with
                | some t => some t
                | none => g.result
              else g.result
          | none => g.result
        let g' := { g with state := st', result := result', finished := true }
        (g', some (r.map fun _ => g.current_node))

/-! Auxiliary observers used to state the claims. -/

/-- Whether an Anthropic stream event is the `Error` variant. -/
def AnthropicStreamEvent.isErrorEvent : AnthropicStreamEvent → Bool
  | .error _ => true
  | _ => false

/-- The index carried by a `ContentBlockStart` event, if any. -/
def startIndex? : AnthropicStreamEvent → Option Nat
  | .contentBlockStart i _ => some i
  | _ => none

/-- The index carried by a `ContentBlockDelta`/`TextDelta` event, if any. -/
def textDeltaIndex? : AnthropicStreamEvent → Option Nat
  | .contentBlockDelta i (.textDelta _) => some i
  | _ => none

/-- Indices of all `ContentBlockStart` events, in arrival order. -/
def openedIndices (events : List AnthropicStreamEvent) : List Nat :=
  events.filterMap startIndex?

/-- Indices of all `ContentBlockDelta`/`TextDelta` events, in arrival order. -/
def textDeltaIndices (events : List AnthropicStreamEvent) : List Nat :=
  events.filterMap textDeltaIndex?

/-- Whether an event is anything but a `Thinking`-kind `ContentBlockStart`. -/
def isNonThinkingStart : AnthropicStreamEvent → Bool
  | .contentBlockStart _ (.thinking _) => false
  | _ => true

/-- Whether a message content block is a `ToolUse` block. -/
def ContentBlock.isToolUse : ContentBlock → Bool
  | .toolUse _ _ _ => true
  | _ => false

/-! Helper lemmas about the event fold. -/

theorem processEventsFrom_append (parse : String → Except String Json)
    (st : AggState) (l₁ l₂ : List AnthropicStreamEvent) :
    processEventsFrom parse st (l₁ ++ l₂) =
      match processEventsFrom parse st l₁ with
      | .error e => .error e
      | .ok st' => processEventsFrom parse st' l₂ := by
  induction l₁ generalizing st with
  | nil => simp [processEventsFrom]
  | cons e rest ih =>
      simp only [List.cons_append, processEventsFrom]
      cases processEvent parse st e with
      | error msg => rfl
      | ok st' => exact ih st'

theorem processEvent_error_event (parse : String → Except String Json)
    (st : AggState) (d : AnthropicStreamErrorData) :
    processEvent parse st (.error d) = .ok st := rfl

theorem processEvent_messageStop (parse : String → Except String Json)
    (st : AggState) :
    processEvent parse st .messageStop = .ok st := rfl

/-! Helper lemmas about the association-list embedding of `HashMap`. -/

theorem mapFind_mapInsert_self {α : Type} (k : Nat) (v : α) (m : List (Nat × α)) :
    mapFind k (mapInsert k v m) = some v := by
  induction m with
  | nil => simp [mapInsert, mapFind]
  | cons p rest ih =>
      obtain ⟨k', v'⟩ := p
      by_cases h : k' = k
      · simp [mapInsert, mapFind, h]
      · simp [mapInsert, mapFind, h, ih]

theorem mapKeys_nil {α : Type} : mapKeys ([] : List (Nat × α)) = [] := rfl

theorem mapKeys_cons {α : Type} (k : Nat) (v : α) (m : List (Nat × α)) :
    mapKeys ((k, v) :: m) = k :: mapKeys m := rfl

theorem mapInsert_nil {α : Type} (i : Nat) (v : α) :
    mapInsert i v ([] : List (Nat × α)) = [(i, v)] := rfl

theorem mapInsert_cons {α : Type} (i k' : Nat) (v v' : α) (rest : List (Nat × α)) :
    mapInsert i v ((k', v') :: rest) =
      if k' = i then (i, v) :: rest else (k', v') :: mapInsert i v rest := rfl

theorem mem_mapKeys_mapInsert {α : Type} (k i : Nat) (v : α) (m : List (Nat × α)) :
    k ∈ mapKeys (mapInsert i v m) ↔ k ∈ mapKeys m ∨ k = i := by
  induction m with
  | nil =>
      simp only [mapInsert_nil, mapKeys_cons, mapKeys_nil, List.mem_cons,
        List.not_mem_nil, or_false, false_or]
  | cons p rest ih =>
      obtain ⟨k', v'⟩ := p
      by_cases h : k' = i
      · rw [mapInsert_cons, if_pos h]
        subst h
        simp only [mapKeys_cons, List.mem_cons]
        tauto
      · rw [mapInsert_cons, if_neg h]
        simp only [mapKeys_cons, List.mem_cons, ih]
        tauto

theorem mapFind_isSome_iff_mem_mapKeys {α : Type} (k : Nat) (m : List (Nat × α)) :
    (mapFind k m).isSome = true ↔ k ∈ mapKeys m := by
  induction m with
  | nil => simp [mapFind, mapKeys_nil]
  | cons p rest ih =>
      obtain ⟨k', v'⟩ := p
      by_cases h : k' = k
      · subst h; simp [mapFind, mapKeys_cons]
      · simp only [mapFind, if_neg h, mapKeys_cons, List.mem_cons, ih]
        have : ¬k = k' := fun hh => h hh.symm
        tauto

theorem mapKeys_mapInsert_of_mem {α : Type} (i : Nat) (v : α) (m : List (Nat × α))
    (h : i ∈ mapKeys m) : mapKeys (mapInsert i v m) = mapKeys m := by
  induction m with
  | nil => exact absurd h (List.not_mem_nil i)
  | cons p rest ih =>
      obtain ⟨k', v'⟩ := p
      by_cases hk : k' = i
      · subst hk; simp [mapInsert, mapKeys_cons]
      · rw [mapKeys_cons, List.mem_cons] at h
        rcases h with h | h
        · exact absurd h.symm hk
        · simp [mapInsert, hk, mapKeys_cons, ih h]

theorem mapKeys_mapInsert_of_not_mem {α : Type} (i : Nat) (v : α) (m : List (Nat × α))
    (h : i ∉ mapKeys m) : mapKeys (mapInsert i v m) = mapKeys m ++ [i] := by
  induction m with
  | nil => simp [mapInsert, mapKeys_cons, mapKeys_nil]
  | cons p rest ih =>
      obtain ⟨k', v'⟩ := p
      rw [mapKeys_cons, List.mem_cons] at h
      push_neg at h
      simp [mapInsert, Ne.symm h.1, mapKeys_cons, ih h.2]

theorem mapKeys_mapInsert_nodup {α : Type} (i : Nat) (v : α) (m : List (Nat × α))
    (h : (mapKeys m).Nodup) : (mapKeys (mapInsert i v m)).Nodup := by
  by_cases hm : i ∈ mapKeys m
  · rw [mapKeys_mapInsert_of_mem i v m hm]; exact h
  · rw [mapKeys_mapInsert_of_not_mem i v m hm]
    simp [List.nodup_append, h, hm]

/-! Helper lemmas about `sortByIndex`. -/

theorem insertSorted_perm {α : Type} (p : Nat × α) (l : List (Nat × α)) :
    List.Perm (insertSorted p l) (p :: l) := by
  induction l with
  | nil => simp [insertSorted]
  | cons q rest ih =>
      by_cases h : p.1 ≤ q.1
      · simp [insertSorted, h]
      · simp only [insertSorted, if_neg h]
        exact (ih.cons q).trans (List.Perm.swap p q rest)

theorem sortByIndex_perm {α : Type} (m : List (Nat × α)) :
    List.Perm (sortByIndex m) m := by
  induction m with
  | nil => simp [sortByIndex]
  | cons p rest ih =>
      exact (insertSorted_perm p (sortByIndex rest)).trans (ih.cons p)

theorem pairwise_le_insertSorted {α : Type} (p : Nat × α) (l : List (Nat × α))
    (h : l.Pairwise (fun a b => a.1 ≤ b.1)) :
    (insertSorted p l).Pairwise (fun a b => a.1 ≤ b.1) := by
  induction l with
  | nil => simp [insertSorted]
  | cons q rest ih =>
      rcases List.pairwise_cons.mp h with ⟨hq, hrest⟩
      by_cases hle : p.1 ≤ q.1
      · simp only [insertSorted, if_pos hle]
        refine List.pairwise_cons.mpr ⟨?_, h⟩
        intro b hb
        rcases List.mem_cons.mp hb with rfl | hb
        · exact hle
        · exact le_trans hle (hq b hb)
      · simp only [insertSorted, if_neg hle]
        refine List.pairwise_cons.mpr ⟨?_, ih hrest⟩
        intro b hb
        have hb' := (insertSorted_perm p rest).mem_iff.mp hb
        rcases List.mem_cons.mp hb' with rfl | hb'
        · exact le_of_not_le hle
        · exact hq b hb'

theorem pairwise_le_sortByIndex {α : Type} (m : List (Nat × α)) :
    (sortByIndex m).Pairwise (fun a b => a.1 ≤ b.1) := by
  induction m with
  | nil => simp [sortByIndex]
  | cons p rest ih => exact pairwise_le_insertSorted p (sortByIndex rest) ih

/-! Key-set evolution of `content_blocks` across the event loop. -/

theorem content_blocks_shape {parse : String → Except String Json} {st st' : AggState}
    {e : AnthropicStreamEvent} (h : processEvent parse st e = .ok st') :
    st'.content_blocks = st.content_blocks ∨
      ∃ i v, st'.content_blocks = mapInsert i v st.content_blocks := by
  cases e with
  | messageStart m =>
      simp only [processEvent, Except.ok.injEq] at h
      subst h; exact Or.inl rfl
  | contentBlockStart i cb =>
      cases cb with
      | text t =>
          simp only [processEvent, Except.ok.injEq] at h
          subst h; exact Or.inr ⟨i, _, rfl⟩
      | toolUse id name input =>
          simp only [processEvent] at h
          cases htn : ToolName.tryFromString name with
          | error e1 => rw [htn] at h; simp at h
          | ok n =>
              rw [htn] at h
              simp only [Except.ok.injEq] at h
              subst h; exact Or.inr ⟨i, _, rfl⟩
      | thinking t =>
          simp only [processEvent, Except.ok.injEq] at h
          subst h; exact Or.inl rfl
  | contentBlockDelta i d =>
      cases d with
      | textDelta t =>
          simp only [processEvent] at h
          rcases hf : mapFind i st.content_blocks with _ | b
          · rw [hf] at h
            simp only [Except.ok.injEq] at h
            subst h; exact Or.inr ⟨i, _, rfl⟩
          · cases b with
            | text et =>
                rw [hf] at h
                simp only [Except.ok.injEq] at h
                subst h; exact Or.inr ⟨i, _, rfl⟩
            | toolUse id n inp =>
                rw [hf] at h
                simp only [Except.ok.injEq] at h
                subst h; exact Or.inr ⟨i, _, rfl⟩
      | inputJsonDelta pj =>
          simp only [processEvent] at h
          rcases hf : mapFind i st.json_buffers with _ | b <;> rw [hf] at h <;>
            simp only [Except.ok.injEq] at h <;> subst h <;> exact Or.inl rfl
      | thinkingDelta t =>
          simp only [processEvent, Except.ok.injEq] at h
          subst h; exact Or.inl rfl
      | signatureDelta s =>
          simp only [processEvent, Except.ok.injEq] at h
          subst h; exact Or.inl rfl
  | contentBlockStop i =>
      simp only [processEvent] at h
      rcases hb : mapFind i st.json_buffers with _ | js
      · rw [hb] at h
        simp only [Except.ok.injEq] at h
        subst h; exact Or.inl rfl
      · rw [hb] at h
        simp only [] at h
        rcases hc : mapFind i st.content_blocks with _ | b
        · rw [show mapFind i ({ st with json_buffers := mapErase i st.json_buffers} : AggState).content_blocks = none from hc] at h
          simp only [Except.ok.injEq] at h
          subst h; exact Or.inl rfl
        · cases b with
          | text et =>
              rw [show mapFind i ({ st with json_buffers := mapErase i st.json_buffers} : AggState).content_blocks = some (.text et) from hc] at h
              simp only [Except.ok.injEq] at h
              subst h; exact Or.inl rfl
          | toolUse id n inp =>
              rw [show mapFind i ({ st with json_buffers := mapErase i st.json_buffers} : AggState).content_blocks = some (.toolUse id n inp) from hc] at h
              rcases hp : parse js with m | v <;> rw [hp] at h
              · simp at h
              · simp only [Except.ok.injEq] at h
                subst h; exact Or.inr ⟨i, _, rfl⟩
  | messageDelta d u =>
      simp only [processEvent, Except.ok.injEq] at h
      subst h; exact Or.inl rfl
  | messageStop =>
      simp only [processEvent, Except.ok.injEq] at h
      subst h; exact Or.inl rfl
  | ping =>
      simp only [processEvent, Except.ok.injEq] at h
      subst h; exact Or.inl rfl
  | error d =>
      simp only [processEvent, Except.ok.injEq] at h
      subst h; exact Or.inl rfl

theorem keys_nodup_processEvent {parse : String → Except String Json} {st st' : AggState}
    {e : AnthropicStreamEvent} (h : processEvent parse st e = .ok st')
    (hn : (mapKeys st.content_blocks).Nodup) :
    (mapKeys st'.content_blocks).Nodup := by
  rcases content_blocks_shape h with heq | ⟨i, v, heq⟩
  · rw [heq]; exact hn
  · rw [heq]; exact mapKeys_mapInsert_nodup i v _ hn

theorem keys_nodup_processEventsFrom {parse : String → Except String Json}
    {st st' : AggState} {evs : List AnthropicStreamEvent}
    (h : processEventsFrom parse st evs = .ok st')
    (hn : (mapKeys st.content_blocks).Nodup) :
    (mapKeys st'.content_blocks).Nodup := by
  induction evs generalizing st with
  | nil =>
      simp only [processEventsFrom, Except.ok.injEq] at h
      subst h; exact hn
  | cons e rest ih =>
      simp only [processEventsFrom] at h
      cases he : processEvent parse st e with
      | error msg => rw [he] at h; simp at h
      | ok st₁ =>
          rw [he] at h
          exact ih h (keys_nodup_processEvent he hn)

theorem mem_keys_processEvent {parse : String → Except String Json} {st st' : AggState}
    {e : AnthropicStreamEvent}
    (h : processEvent parse st e = .ok st') (hnt : isNonThinkingStart e = true) (k : Nat) :
    k ∈ mapKeys st'.content_blocks ↔
      k ∈ mapKeys st.content_blocks ∨ startIndex? e = some k ∨ textDeltaIndex? e = some k := by
  cases e with
  | messageStart m =>
      simp only [processEvent, Except.ok.injEq] at h
      subst h
      simp [startIndex?, textDeltaIndex?]
  | contentBlockStart i cb =>
      cases cb with
      | text t =>
          simp only [processEvent, Except.ok.injEq] at h
          subst h
          simp only [startIndex?, textDeltaIndex?, mem_mapKeys_mapInsert, Option.some.injEq]
          constructor
          · rintro (hk | rfl)
            · exact Or.inl hk
            · exact Or.inr (Or.inl rfl)
          · rintro (hk | rfl | h2)
            · exact Or.inl hk
            · exact Or.inr rfl
            · cases h2
      | toolUse id name input =>
          simp only [processEvent] at h
          cases htn : ToolName.tryFromString name with
          | error e1 => rw [htn] at h; simp at h
          | ok n =>
              rw [htn] at h
              simp only [Except.ok.injEq] at h
              subst h
              simp only [startIndex?, textDeltaIndex?, mem_mapKeys_mapInsert, Option.some.injEq]
              constructor
              · rintro (hk | rfl)
                · exact Or.inl hk
                · exact Or.inr (Or.inl rfl)
              · rintro (hk | rfl | h2)
                · exact Or.inl hk
                · exact Or.inr rfl
                · cases h2
      | thinking t => simp [isNonThinkingStart] at hnt
  | contentBlockDelta i d =>
      cases d with
      | textDelta t =>
          have key : ∀ m, st'.content_blocks = mapInsert i m st.content_blocks →
              (k ∈ mapKeys st'.content_blocks ↔
                k ∈ mapKeys st.content_blocks ∨
                  startIndex? (AnthropicStreamEvent.contentBlockDelta i (.textDelta t)) = some k ∨
                  textDeltaIndex? (AnthropicStreamEvent.contentBlockDelta i (.textDelta t)) = some k) := by
            intro m heq
            rw [heq]
            simp only [startIndex?, textDeltaIndex?, mem_mapKeys_mapInsert, Option.some.injEq]
            constructor
            · rintro (hk | rfl)
              · exact Or.inl hk
              · exact Or.inr (Or.inr rfl)
            · rintro (hk | h2 | rfl)
              · exact Or.inl hk
              · cases h2
              · exact Or.inr rfl
          simp only [processEvent] at h
          rcases hf : mapFind i st.content_blocks with _ | b
          · rw [hf] at h
            simp only [Except.ok.injEq] at h
            subst h
            exact key _ rfl
          · cases b with
            | text et =>
                rw [hf] at h
                simp only [Except.ok.injEq] at h
                subst h
                exact key _ rfl
            | toolUse id n inp =>
                rw [hf] at h
                simp only [Except.ok.injEq] at h
                subst h
                exact key _ rfl
      | inputJsonDelta pj =>
          simp only [processEvent] at h
          rcases hf : mapFind i st.json_buffers with _ | b <;> rw [hf] at h <;>
            simp only [Except.ok.injEq] at h <;> subst h <;>
            simp [startIndex?, textDeltaIndex?]
      | thinkingDelta t =>
          simp only [processEvent, Except.ok.injEq] at h
          subst h
          simp [startIndex?, textDeltaIndex?]
      | signatureDelta s =>
          simp only [processEvent, Except.ok.injEq] at h
          subst h
          simp [startIndex?, textDeltaIndex?]
  | contentBlockStop i =>
      simp only [processEvent] at h
      rcases hb : mapFind i st.json_buffers with _ | js
      · rw [hb] at h
        simp only [Except.ok.injEq] at h
        subst h
        simp [startIndex?, textDeltaIndex?]
      · rw [hb] at h
        simp only [] at h
        rcases hc : mapFind i st.content_blocks with _ | b
        · rw [show mapFind i ({ st with json_buffers := mapErase i st.json_buffers} : AggState).content_blocks = none from hc] at h
          simp only [Except.ok.injEq] at h
          subst h
          simp [startIndex?, textDeltaIndex?]
        · cases b with
          | text et =>
              rw [show mapFind i ({ st with json_buffers := mapErase i st.json_buffers} : AggState).content_blocks = some (.text et) from hc] at h
              simp only [Except.ok.injEq] at h
              subst h
              simp [startIndex?, textDeltaIndex?]
          | toolUse id n inp =>
              rw [show mapFind i ({ st with json_buffers := mapErase i st.json_buffers} : AggState).content_blocks = some (.toolUse id n inp) from hc] at h
              rcases hp : parse js with m | v <;> rw [hp] at h
              · simp at h
              · simp only [Except.ok.injEq] at h
                subst h
                have hmem : i ∈ mapKeys st.content_blocks :=
                  (mapFind_isSome_iff_mem_mapKeys i _).mp (by rw [hc]; rfl)
                simp only [startIndex?, textDeltaIndex?, mem_mapKeys_mapInsert]
                constructor
                · rintro (hk | rfl)
                  · exact Or.inl hk
                  · exact Or.inl hmem
                · rintro (hk | h2 | h2)
                  · exact Or.inl hk
                  · cases h2
                  · cases h2
  | messageDelta d u =>
      simp only [processEvent, Except.ok.injEq] at h
      subst h
      simp [startIndex?, textDeltaIndex?]
  | messageStop =>
      simp only [processEvent, Except.ok.injEq] at h
      subst h
      simp [startIndex?, textDeltaIndex?]
  | ping =>
      simp only [processEvent, Except.ok.injEq] at h
      subst h
      simp [startIndex?, textDeltaIndex?]
  | error d =>
      simp only [processEvent, Except.ok.injEq] at h
      subst h
      simp [startIndex?, textDeltaIndex?]

theorem mem_filterMapIdx_cons (f : AnthropicStreamEvent → Option Nat)
    (e : AnthropicStreamEvent) (rest : List AnthropicStreamEvent) (k : Nat) :
    k ∈ List.filterMap f (e :: rest) ↔ f e = some k ∨ k ∈ List.filterMap f rest := by
  rw [List.filterMap_cons]
  cases hf : f e with
  | none => simp
  | some i => simp [List.mem_cons, eq_comm]

theorem mem_keys_processEventsFrom {parse : String → Except String Json}
    {st st' : AggState} {evs : List AnthropicStreamEvent}
    (h : processEventsFrom parse st evs = .ok st')
    (hnt : ∀ e ∈ evs, isNonThinkingStart e = true) (k : Nat) :
    k ∈ mapKeys st'.content_blocks ↔
      k ∈ mapKeys st.content_blocks ∨ k ∈ openedIndices evs ∨ k ∈ textDeltaIndices evs := by
  induction evs generalizing st with
  | nil =>
      simp only [processEventsFrom, Except.ok.injEq] at h
      subst h
      simp [openedIndices, textDeltaIndices]
  | cons e rest ih =>
      simp only [processEventsFrom] at h
      cases he : processEvent parse st e with
      | error msg => rw [he] at h; simp at h
      | ok st₁ =>
          rw [he] at h
          have h1 := mem_keys_processEvent he (hnt e (List.mem_cons_self e rest)) k
          have h2 := ih h (fun e' he' => hnt e' (List.mem_cons_of_mem e he'))
          rw [h2, h1]
          simp only [openedIndices, textDeltaIndices,
            mem_filterMapIdx_cons startIndex? e rest k,
            mem_filterMapIdx_cons textDeltaIndex? e rest k]
          tauto

theorem pairwise_lt_sortByIndex {α : Type} (m : List (Nat × α))
    (h : (mapKeys m).Nodup) :
    ((sortByIndex m).map Prod.fst).Pairwise (fun a b => a < b) := by
  have hperm : List.Perm (mapKeys (sortByIndex m)) (mapKeys m) :=
    (sortByIndex_perm m).map Prod.fst
  have hnd : (mapKeys (sortByIndex m)).Nodup := hperm.nodup_iff.mpr h
  have hne : (sortByIndex m).Pairwise (fun a b => a.1 ≠ b.1) :=
    List.pairwise_map.mp hnd
  have hle := pairwise_le_sortByIndex m
  refine List.pairwise_map.mpr ?_
  exact (hle.and hne).imp (fun hab => lt_of_le_of_ne hab.1 hab.2)

theorem processEventsFrom_filter_errors (parse : String → Except String Json)
    (evs : List AnthropicStreamEvent) : ∀ st : AggState,
    processEventsFrom parse st (evs.filter fun e => !e.isErrorEvent) =
      processEventsFrom parse st evs := by
  induction evs with
  | nil => intro st; rfl
  | cons e rest ih =>
      intro st
      rw [List.filter_cons]
      cases he : e.isErrorEvent with
      | false =>
          simp only [he, Bool.not_false]
          rw [if_pos trivial]
          show processEventsFrom parse st (e :: rest.filter fun e => !e.isErrorEvent) = _
          simp only [processEventsFrom]
          cases processEvent parse st e with
          | error m => rfl
          | ok st₁ => exact ih st₁
      | true =>
          simp only [he, Bool.not_true]
          rw [if_neg (by simp)]
          rw [ih st]
          cases e <;> simp [AnthropicStreamEvent.isErrorEvent] at he
          rfl

theorem callToolsStep_no_toolUse (env : CallToolsEnv) (st : State)
    (blocks : List ContentBlock) (h : ∀ b ∈ blocks, b.isToolUse = false) :
    callToolsStep env st blocks =
      (st, .error (.invalidStateTransition "No tool use request found in the last message")) := by
  induction blocks with
  | nil => rfl
  | cons b rest ih =>
      cases b with
      | toolResult i c => exact ih fun x hx => h x (List.mem_cons_of_mem _ hx)
      | text t => exact ih fun x hx => h x (List.mem_cons_of_mem _ hx)
      | toolUse i n inp =>
          have hb := h _ (List.mem_cons_self _ _)
          simp [ContentBlock.isToolUse] at hb

theorem callToolsStep_error_fst (env : CallToolsEnv) (st : State) :
    ∀ (blocks : List ContentBlock) (e : GraphError),
      (callToolsStep env st blocks).2 = .error e → (callToolsStep env st blocks).1 = st := by
  intro blocks
  induction blocks with
  | nil => intro e _; rfl
  | cons b rest ih =>
      intro e he
      cases b with
      | toolResult i c => exact ih e he
      | text t => exact ih e he
      | toolUse i n inp =>
          by_cases ht : env.tools_available
          · cases hx : env.execute n inp with
            | error m => simp [callToolsStep, ht, hx]
            | ok tr =>
                simp only [callToolsStep, if_pos ht, hx] at he
                simp at he
          · simp [callToolsStep, ht]

theorem callToolsStep_ok_shape (env : CallToolsEnv) (st : State) :
    ∀ (blocks : List ContentBlock) (t : NodeTransition),
      (callToolsStep env st blocks).2 = .ok t →
      ∃ id rc, (callToolsStep env st blocks).1 =
        { st with
            tool_outputs := mapInsertStr id rc st.tool_outputs
            message_history := st.message_history ++
              [{ role := .user, content := [.toolResult id rc] }] } := by
  intro blocks
  induction blocks with
  | nil => intro t ht; simp [callToolsStep] at ht
  | cons b rest ih =>
      intro t ht
      cases b with
      | toolResult i c => exact ih t ht
      | text tx => exact ih t ht
      | toolUse i n inp =>
          by_cases htools : env.tools_available
          · cases hx : env.execute n inp with
            | error m =>
                simp only [callToolsStep, if_pos htools, hx] at ht
                simp at ht
            | ok tr =>
                refine ⟨i, if tr.is_error then "Error: " ++ tr.content else tr.content, ?_⟩
                simp [callToolsStep, htools, hx]
          · simp only [callToolsStep, if_neg htools] at ht
            simp at ht

theorem modelRequestRun_ok (parse : String → Except String Json)
    (evs : List StreamEvent) (st : State) (resp : Response)
    (hpe : StreamEvent.process_events parse evs = .ok resp) :
    modelRequestRun parse (.ok evs) st =
      ({ st with message_history := st.message_history ++ [resp.toMessage] },
       match resp.stop_reason with
       | some .maxTokens => .error .maxTokens
       | some .toolUse => .ok .toCallTools
       | _ => .ok .toEnd) := by
  unfold modelRequestRun
  simp only [hpe]
  cases resp.stop_reason with
  | none => rfl
  | some r => cases r <;> rfl

theorem modelRequestRun_error_shape (parse : String → Except String Json)
    (sev : Except String (List StreamEvent)) (st : State) (e : GraphError)
    (h : (modelRequestRun parse sev st).2 = .error e) :
    (modelRequestRun parse sev st).1 = st ∨
      (e = .maxTokens ∧ ∃ msg, (modelRequestRun parse sev st).1 =
        { st with message_history := st.message_history ++ [msg] }) := by
  cases sev with
  | error s => exact Or.inl rfl
  | ok evs =>
      cases hq : StreamEvent.process_events parse evs with
      | error m =>
          left
          unfold modelRequestRun
          simp only [hq]
      | ok resp =>
          rw [modelRequestRun_ok parse evs st resp hq] at h ⊢
          cases hsr : resp.stop_reason with
          | none => rw [hsr] at h; simp at h
          | some r =>
              cases r with
              | maxTokens =>
                  rw [hsr] at h
                  simp only [] at h
                  cases h
                  exact Or.inr ⟨rfl, resp.toMessage, rfl⟩
              | endTurn => rw [hsr] at h; simp at h
              | stopSequence => rw [hsr] at h; simp at h
              | toolUse => rw [hsr] at h; simp at h

theorem modelRequestRun_ok_shape (parse : String → Except String Json)
    (sev : Except String (List StreamEvent)) (st : State) (t : NodeTransition)
    (h : (modelRequestRun parse sev st).2 = .ok t) :
    ∃ msg, (modelRequestRun parse sev st).1 =
      { st with message_history := st.message_history ++ [msg] } := by
  cases sev with
  | error s => simp [modelRequestRun] at h
  | ok evs =>
      cases hq : StreamEvent.process_events parse evs with
      | error m =>
          unfold modelRequestRun at h
          simp only [hq] at h
          simp at h
      | ok resp =>
          rw [modelRequestRun_ok parse evs st resp hq]
          exact ⟨resp.toMessage, rfl⟩

/-! Claim theorems. -/

/-- Claim C7, counterexample: a state whose last message contains zero
`ToolUse` blocks but has role `User` fails with the
"Last message is not from assistant" error, not the specific
"no tool use found" error, so the claim as stated is false. -/
theorem c7_counterexample :
    callToolsRun { tools_available := false, execute := fun _ _ => .error "unused" }
        { message_history := [{ role := .user, content := [.text "hi"] }],
          current_user_prompt := "", tool_outputs := [] } =
      ({ message_history := [{ role := .user, content := [.text "hi"] }],
         current_user_prompt := "", tool_outputs := [] },
       .error (.invalidStateTransition "Last message is not from assistant")) := rfl

/-- Claim C7, amended: for every ConversationState whose last message has
role `Assistant` and contains zero `ToolUse` content blocks, `CallTools::run`
fails with the specific "No tool use request found in the last message"
error and leaves the state (message history and tool-output map) unchanged. -/
theorem c7_no_toolUse_fails_state_unchanged (env : CallToolsEnv) (st : State)
    (last_msg : Message)
    (hlast : st.message_history.getLast? = some last_msg)
    (hrole : last_msg.role = .assistant)
    (hnone : ∀ b ∈ last_msg.content, b.isToolUse = false) :
    callToolsRun env st =
      (st, .error (.invalidStateTransition "No tool use request found in the last message")) := by
  unfold callToolsRun
  rw [hlast]
  simp only [hrole, if_pos rfl]
  exact callToolsStep_no_toolUse env st last_msg.content hnone

/-- Witness for C7 at a concrete input: an assistant message holding a
single text block. -/
theorem c7_witness :
    callToolsRun { tools_available := false, execute := fun _ _ => .error "unused" }
        { message_history := [{ role := .assistant, content := [.text "hello"] }],
          current_user_prompt := "", tool_outputs := [] } =
      ({ message_history := [{ role := .assistant, content := [.text "hello"] }],
         current_user_prompt := "", tool_outputs := [] },
       .error (.invalidStateTransition "No tool use request found in the last message")) :=
  c7_no_toolUse_fails_state_unchanged
    { tools_available := false, execute := fun _ _ => .error "unused" }
    { message_history := [{ role := .assistant, content := [.text "hello"] }],
      current_user_prompt := "", tool_outputs := [] }
    { role := .assistant, content := [.text "hello"] }
    rfl rfl
    (by intro b hb; simp only [List.mem_singleton] at hb; subst hb; rfl)

/-- Claim C1, counterexample: a one-event sequence consisting of exactly one
`Error` event makes `process_events` return `Ok` (the default empty response)
instead of aborting with a failure, so the claim as stated is false. -/
theorem c1_counterexample :
    AnthropicStreamEvent.process_events (fun _ => .error "unused")
      [AnthropicStreamEvent.error { error_type := "api_error", message := "boom" }] =
    .ok { id := "", type := "message", role := .assistant, model := "",
          content := [], stop_reason := none, stop_sequence := none,
          usage := some ⟨0, 0, 0, 0⟩ } := rfl

/-- Claim C1, amended: `process_events` silently drops every `Error` event
(the catch-all `_ => ()` arm): aggregating a sequence with all `Error`
events removed yields exactly the same result as aggregating the original
sequence; in particular an `Error` event never aborts aggregation. -/
theorem c1_error_events_dropped (parse : String → Except String Json)
    (events : List AnthropicStreamEvent) :
    AnthropicStreamEvent.process_events parse
        (events.filter fun e => !e.isErrorEvent) =
      AnthropicStreamEvent.process_events parse events := by
  unfold AnthropicStreamEvent.process_events
  rw [processEventsFrom_filter_errors]

/-- Claim C2, counterexample: the empty event sequence ends with no
`MessageStop` ever delivered, yet `process_events` returns a successfully
built response, so the claim as stated is false. -/
theorem c2_counterexample :
    AnthropicStreamEvent.process_events (fun _ => .error "unused") [] =
    .ok { id := "", type := "message", role := .assistant, model := "",
          content := [], stop_reason := none, stop_sequence := none,
          usage := some ⟨0, 0, 0, 0⟩ } := rfl

/-- Claim C2, amended: `process_events` never checks whether `MessageStop`
was seen — appending a trailing `MessageStop` to any event sequence never
changes the result, so a sequence that ends without `MessageStop` is
aggregated exactly like one that ends with it (no distinct failure). -/
theorem c2_no_messageStop_not_failure (parse : String → Except String Json)
    (events : List AnthropicStreamEvent) :
    AnthropicStreamEvent.process_events parse
        (events ++ [AnthropicStreamEvent.messageStop]) =
      AnthropicStreamEvent.process_events parse events := by
  unfold AnthropicStreamEvent.process_events
  rw [processEventsFrom_append]
  cases processEventsFrom parse initAggState events with
  | error e => rfl
  | ok st => rfl

/-- Claim C6, confirmed: if, when a `ContentBlockStop index` event arrives,
the aggregation state holds a buffered JSON string `b` for `index` and a
`ToolUse` entry at `index`, and `b` does not parse as a structured value,
then the whole aggregation fails with the parse error — no response (with a
partial or defaulted tool input) is ever returned. -/
theorem c6_invalid_toolUse_json_aborts (parse : String → Except String Json)
    (pre post : List AnthropicStreamEvent) (index : Nat) (b m : String)
    (st : AggState) (id : String) (name : ToolName) (input : Json)
    (hpre : processEventsFrom parse initAggState pre = .ok st)
    (hbuf : mapFind index st.json_buffers = some b)
    (htool : mapFind index st.content_blocks = some (.toolUse id name input))
    (hparse : parse b = .error m) :
    AnthropicStreamEvent.process_events parse
        (pre ++ AnthropicStreamEvent.contentBlockStop index :: post) =
      .error ("Failed to parse JSON: " ++ m) := by
  have hstep : processEvent parse st (.contentBlockStop index) =
      .error ("Failed to parse JSON: " ++ m) := by
    simp only [processEvent, hbuf]
    rw [show mapFind index
        ({ st with json_buffers := mapErase index st.json_buffers} : AggState).content_blocks =
        some (.toolUse id name input) from htool, hparse]
  unfold AnthropicStreamEvent.process_events
  rw [processEventsFrom_append, hpre]
  simp only [processEventsFrom, hstep]

/-- Witness for C6 at a concrete input: a `ToolUse` block at index 0 whose
single buffered fragment never parses. -/
theorem c6_witness :
    AnthropicStreamEvent.process_events (fun _ => .error "eof")
        ([AnthropicStreamEvent.contentBlockStart 0 (.toolUse "tu1" "tree" Json.null),
          AnthropicStreamEvent.contentBlockDelta 0 (.inputJsonDelta "[1,")] ++
         AnthropicStreamEvent.contentBlockStop 0 :: []) =
      .error ("Failed to parse JSON: " ++ "eof") :=
  c6_invalid_toolUse_json_aborts (fun _ => .error "eof")
    [AnthropicStreamEvent.contentBlockStart 0 (.toolUse "tu1" "tree" Json.null),
     AnthropicStreamEvent.contentBlockDelta 0 (.inputJsonDelta "[1,")] [] 0 "[1," "eof"
    { id := "", model := "", role := .assistant, stop_reason := none,
      stop_sequence := none, usage := ⟨0, 0, 0, 0⟩,
      content_blocks := [(0, .toolUse "tu1" .tree Json.null)],
      json_buffers := [(0, "[1,")] }
    "tu1" .tree Json.null rfl rfl rfl rfl

/-- Claim C9, confirmed: a `TextDelta` for an index whose current entry is a
`ToolUse` block falls into the catch-all insert arm, replacing the entry with
a fresh `Text` block holding only the delta text; the tool-use id, name and
input at that index are discarded. -/
theorem c9_textDelta_replaces_toolUse (parse : String → Except String Json)
    (st : AggState) (index : Nat) (t id : String) (name : ToolName) (input : Json)
    (h : mapFind index st.content_blocks = some (.toolUse id name input)) :
    processEvent parse st (.contentBlockDelta index (.textDelta t)) =
      .ok { st with content_blocks := mapInsert index (.text t) st.content_blocks } ∧
    mapFind index (mapInsert index (AnthropicResponseContentBlock.text t)
        st.content_blocks) = some (.text t) := by
  constructor
  · simp only [processEvent, h]
  · exact mapFind_mapInsert_self index _ st.content_blocks

/-- Witness for C9 at a concrete input. -/
theorem c9_witness :
    processEvent (fun _ => .error "unused")
        { id := "", model := "", role := .assistant, stop_reason := none,
          stop_sequence := none, usage := ⟨0, 0, 0, 0⟩,
          content_blocks := [(0, .toolUse "tu1" .tree Json.null)],
          json_buffers := [] }
        (.contentBlockDelta 0 (.textDelta "hi")) =
      .ok { id := "", model := "", role := .assistant, stop_reason := none,
            stop_sequence := none, usage := ⟨0, 0, 0, 0⟩,
            content_blocks :=
              mapInsert 0 (.text "hi") [(0, .toolUse "tu1" .tree Json.null)],
            json_buffers := [] } ∧
    mapFind 0 (mapInsert 0 (AnthropicResponseContentBlock.text "hi")
        [(0, AnthropicResponseContentBlock.toolUse "tu1" .tree Json.null)]) =
      some (.text "hi") :=
  c9_textDelta_replaces_toolUse (fun _ => .error "unused") _ 0 "hi" "tu1" .tree Json.null rfl

/-- Claim C10, confirmed: at `ContentBlockStop index`, when a JSON buffer
exists for `index` but the content entry at `index` is absent or a `Text`
block, the buffer is removed and discarded and the step succeeds; the result
does not depend on the parser at all, so the buffered text (valid JSON or
not) is never parsed. -/
theorem c10_buffer_discarded_without_parsing (st : AggState) (index : Nat) (b : String)
    (hbuf : mapFind index st.json_buffers = some b)
    (hentry : mapFind index st.content_blocks = none ∨
      ∃ t, mapFind index st.content_blocks = some (.text t)) :
    ∀ parse : String → Except String Json,
      processEvent parse st (.contentBlockStop index) =
        .ok { st with json_buffers := mapErase index st.json_buffers } := by
  intro parse
  rcases hentry with hc | ⟨t, hc⟩
  · simp only [processEvent, hbuf]
    rw [show mapFind index
        ({ st with json_buffers := mapErase index st.json_buffers} : AggState).content_blocks =
        none from hc]
  · simp only [processEvent, hbuf]
    rw [show mapFind index
        ({ st with json_buffers := mapErase index st.json_buffers} : AggState).content_blocks =
        some (.text t) from hc]

/-- Witness for C10 at a concrete input: a buffered fragment at index 0
whose entry is a `Text` block. -/
theorem c10_witness :
    processEvent (fun _ => .error "unused")
        { id := "", model := "", role := .assistant, stop_reason := none,
          stop_sequence := none, usage := ⟨0, 0, 0, 0⟩,
          content_blocks := [(0, .text "hello")],
          json_buffers := [(0, "[1,")] }
        (.contentBlockStop 0) =
      .ok { id := "", model := "", role := .assistant, stop_reason := none,
            stop_sequence := none, usage := ⟨0, 0, 0, 0⟩,
            content_blocks := [(0, .text "hello")],
            json_buffers := mapErase 0 [(0, "[1,")] } :=
  c10_buffer_discarded_without_parsing
    { id := "", model := "", role := .assistant, stop_reason := none,
      stop_sequence := none, usage := ⟨0, 0, 0, 0⟩,
      content_blocks := [(0, .text "hello")],
      json_buffers := [(0, "[1,")] }
    0 "[1," rfl (Or.inr ⟨"hello", rfl⟩) (fun _ => .error "unused")

/-- Claim C4, confirmed: a `ModelRequest` step whose stream aggregates to a
response is routed by `GraphIter::next` exactly by the response's stop
reason: `ToolUse` moves to `CallTools`; `EndTurn`, `StopSequence` or `None`
moves to `End`; `MaxTokens` returns the `MaxTokens` error (called
`MaxTokensExceeded` in the spec), marks the iterator finished and performs
no transition (the current node is left untouched). -/
theorem c4_stop_reason_determines_successor (env : NodeEnv) (g : GraphIterState)
    (evs : List StreamEvent) (resp : Response)
    (hnode : g.current_node = .modelRequest) (hfin : g.finished = false)
    (hse : env.streamEvents = .ok evs)
    (hpe : StreamEvent.process_events env.parse evs = .ok resp) :
    (resp.stop_reason = some .toolUse →
      iterNext env g =
        ({ g with
            state := { g.state with
              message_history := g.state.message_history ++ [resp.toMessage] }
            current_node := .callTools },
         some (.ok .callTools))) ∧
    ((resp.stop_reason = some .endTurn ∨ resp.stop_reason = some .stopSequence ∨
        resp.stop_reason = none) →
      iterNext env g =
        ({ g with
            state := { g.state with
              message_history := g.state.message_history ++ [resp.toMessage] }
            current_node := .endNode },
         some (.ok .endNode))) ∧
    (resp.stop_reason = some .maxTokens →
      iterNext env g =
        ({ g with
            state := { g.state with
              message_history := g.state.message_history ++ [resp.toMessage] }
            finished := true },
         some (.error .maxTokens))) := by
  obtain ⟨gs, gn, gf, gr⟩ := g
  simp only at hnode hfin
  subst hnode; subst hfin
  have hrun := modelRequestRun_ok env.parse evs gs resp hpe
  refine ⟨?_, ?_, ?_⟩
  · intro hsr
    simp only [iterNext, hse, hrun, hsr]
    rfl
  · rintro (hsr | hsr | hsr) <;> simp only [iterNext, hse, hrun, hsr] <;> rfl
  · intro hsr
    simp only [iterNext, hse, hrun, hsr]
    rfl

/-- Witness for C4 at a concrete input: a single `MessageDelta` event with
stop reason `ToolUse` routes the machine to `CallTools`. -/
theorem c4_witness :
    iterNext
      { parse := fun _ => .error "unused"
        streamEvents := .ok [StreamEvent.messageDelta
          { stop_reason := some .toolUse, stop_sequence := none } none]
        callTools := { tools_available := false, execute := fun _ _ => .error "unused" }
        userRequestRun := fun st => (st, .ok .toEnd) }
      { state := { message_history := [], current_user_prompt := "p", tool_outputs := [] }
        current_node := .modelRequest, finished := false, result := none } =
    ({ state :=
        { message_history := [] ++
            [(({ id := "", type := "message", role := .assistant, model := "",
                 content := [], stop_reason := some .toolUse, stop_sequence := none,
                 usage := some ⟨0, 0, 0, 0⟩ } : Response)).toMessage]
          current_user_prompt := "p", tool_outputs := [] }
       current_node := .callTools, finished := false, result := none },
     some (.ok .callTools)) :=
  (c4_stop_reason_determines_successor
    { parse := fun _ => .error "unused"
      streamEvents := .ok [StreamEvent.messageDelta
        { stop_reason := some .toolUse, stop_sequence := none } none]
      callTools := { tools_available := false, execute := fun _ _ => .error "unused" }
      userRequestRun := fun st => (st, .ok .toEnd) }
    { state := { message_history := [], current_user_prompt := "p", tool_outputs := [] }
      current_node := .modelRequest, finished := false, result := none }
    [StreamEvent.messageDelta { stop_reason := some .toolUse, stop_sequence := none } none]
    { id := "", type := "message", role := .assistant, model := "",
      content := [], stop_reason := some .toolUse, stop_sequence := none,
      usage := some ⟨0, 0, 0, 0⟩ }
    rfl rfl rfl rfl).1 rfl

/-- Claim C5, counterexample: a `ModelRequest` step whose aggregated
response carries stop reason `MaxTokens` returns the `MaxTokens` error yet
has already appended the assistant message to the history, so the failing
step does not leave the state unchanged and the claim as stated is false. -/
theorem c5_counterexample :
    (modelRequestRun (fun _ => .error "unused")
        (.ok [StreamEvent.messageDelta
          { stop_reason := some .maxTokens, stop_sequence := none } none])
        { message_history := [], current_user_prompt := "p", tool_outputs := [] }).2 =
      .error .maxTokens ∧
    (modelRequestRun (fun _ => .error "unused")
        (.ok [StreamEvent.messageDelta
          { stop_reason := some .maxTokens, stop_sequence := none } none])
        { message_history := [], current_user_prompt := "p", tool_outputs := [] }).1.message_history =
      [{ role := .assistant, content := [] }] :=
  ⟨rfl, rfl⟩

/-- Claim C5, amended: every failing `CallTools` step leaves the state
(message history and tool-output map) exactly unchanged; a failing
`ModelRequest` step leaves the state unchanged except when it fails with
`MaxTokens`, in which case the aggregated assistant message has already been
appended; `Start` and every successful `ModelRequest`/`CallTools` step fully
commits its message append; `End` never mutates state. -/
theorem c5_all_or_nothing_except_maxTokens :
    (∀ (env : CallToolsEnv) (st : State) (e : GraphError),
        (callToolsRun env st).2 = .error e → (callToolsRun env st).1 = st) ∧
    (∀ (parse : String → Except String Json) (sev : Except String (List StreamEvent))
        (st : State) (e : GraphError),
        (modelRequestRun parse sev st).2 = .error e →
          (modelRequestRun parse sev st).1 = st ∨
            (e = .maxTokens ∧ ∃ msg, (modelRequestRun parse sev st).1 =
              { st with message_history := st.message_history ++ [msg] })) ∧
    (∀ st : State, (startRun st).1 =
        { st with message_history := st.message_history ++
            [{ role := .user, content := [.text st.current_user_prompt] }] } ∧
        (startRun st).2 = .ok .toUserRequest) ∧
    (∀ st : State, endRun st = (st, .ok .terminal)) ∧
    (∀ (parse : String → Except String Json) (sev : Except String (List StreamEvent))
        (st : State) (t : NodeTransition),
        (modelRequestRun parse sev st).2 = .ok t →
          ∃ msg, (modelRequestRun parse sev st).1 =
            { st with message_history := st.message_history ++ [msg] }) ∧
    (∀ (env : CallToolsEnv) (st : State) (t : NodeTransition),
        (callToolsRun env st).2 = .ok t →
          ∃ id rc, (callToolsRun env st).1 =
            { st with
                tool_outputs := mapInsertStr id rc st.tool_outputs
                message_history := st.message_history ++
                  [{ role := .user, content := [.toolResult id rc] }] }) := by
  refine ⟨?_, ?_, ?_, ?_, ?_, ?_⟩
  · intro env st e h
    cases hl : st.message_history.getLast? with
    | none => simp [callToolsRun, hl]
    | some m =>
        by_cases hr : m.role = .assistant
        · have h2 : callToolsRun env st = callToolsStep env st m.content := by
            simp [callToolsRun, hl, hr]
          rw [h2] at h ⊢
          exact callToolsStep_error_fst env st m.content e h
        · simp [callToolsRun, hl, hr]
  · exact modelRequestRun_error_shape
  · intro st; exact ⟨rfl, rfl⟩
  · intro st; rfl
  · exact modelRequestRun_ok_shape
  · intro env st t h
    cases hl : st.message_history.getLast? with
    | none => simp [callToolsRun, hl] at h
    | some m =>
        by_cases hr : m.role = .assistant
        · have h2 : callToolsRun env st = callToolsStep env st m.content := by
            simp [callToolsRun, hl, hr]
          rw [h2] at h ⊢
          exact callToolsStep_ok_shape env st m.content t h
        · simp [callToolsRun, hl, hr] at h

/-- Witness for C5 at a concrete input: a `CallTools` step over an empty
history fails and leaves the state unchanged. -/
theorem c5_witness :
    (callToolsRun { tools_available := false, execute := fun _ _ => .error "unused" }
        { message_history := [], current_user_prompt := "p", tool_outputs := [] }).1 =
      { message_history := [], current_user_prompt := "p", tool_outputs := [] } :=
  c5_all_or_nothing_except_maxTokens.1
    { tools_available := false, execute := fun _ _ => .error "unused" }
    { message_history := [], current_user_prompt := "p", tool_outputs := [] }
    (.other "No messages in history") rfl

/-- Claim C8, code bug: `UserRequest::run` only ever returns
`Ok(ToCallTools)`, `Ok(ToEnd)` or `Err(..)` (`nodes/user_request.rs`), yet
the `UserRequest` arm of `GraphIter::next` accepts only `ToModelRequest` and
returns `Err(InvalidStateTransition)` early for anything else WITHOUT
setting `finished` (`iter.rs:50-69`). This theorem evaluates the embedded
`GraphIter::next` at that failing input: the step fails with
`InvalidStateTransition` while the iterator state — including
`finished = false` — is returned completely unchanged, so the next `advance`
re-executes `UserRequest` instead of returning "no further steps". -/
theorem c8_failing_step_leaves_finished_unset :
    iterNext
      { parse := fun _ => .error "unused"
        streamEvents := .error "unused"
        callTools := { tools_available := false, execute := fun _ _ => .error "unused" }
        userRequestRun := fun st => (st, .ok .toCallTools) }
      { state := { message_history := [], current_user_prompt := "hi", tool_outputs := [] }
        current_node := .userRequest, finished := false, result := none } =
    ({ state := { message_history := [], current_user_prompt := "hi", tool_outputs := [] }
       current_node := .userRequest, finished := false, result := none },
     some (.error (.invalidStateTransition "Invalid transition from UserRequest"))) := rfl

/-- Claim C3, counterexample: one `Thinking`-kind content block opened at
index 0 and validly closed (N = 1 distinct opened index) produces a response
with empty content (length 0, not 1), because `Thinking` blocks are never
inserted into `content_blocks`; the claim as stated is false. -/
theorem c3_counterexample :
    AnthropicStreamEvent.process_events (fun _ => .error "unused")
      [AnthropicStreamEvent.contentBlockStart 0 (.thinking "t"),
       AnthropicStreamEvent.contentBlockStop 0] =
    .ok { id := "", type := "message", role := .assistant, model := "",
          content := [], stop_reason := none, stop_sequence := none,
          usage := some ⟨0, 0, 0, 0⟩ } := rfl

/-- Claim C3, amended: for every event sequence in which N distinct
content-block indices are opened with `Text` or `ToolUse` kind (in any
interleaving) and aggregation succeeds (in particular when every block is
validly closed), with every `TextDelta` targeting an opened index, the
aggregated response's content has length N and its entries are the collected
blocks ordered strictly ascending by their original block index, independent
of event arrival order. -/
theorem c3_content_length_sorted (parse : String → Except String Json)
    (events : List AnthropicStreamEvent) (st : AggState) (N : Nat)
    (hok : processEventsFrom parse initAggState events = .ok st)
    (hnt : ∀ e ∈ events, isNonThinkingStart e = true)
    (hnodup : (openedIndices events).Nodup)
    (hN : (openedIndices events).length = N)
    (hdeltas : ∀ i ∈ textDeltaIndices events, i ∈ openedIndices events)
    (hclosed : ∀ i ∈ openedIndices events,
      AnthropicStreamEvent.contentBlockStop i ∈ events) :
    AnthropicStreamEvent.process_events parse events = .ok (finalizeResponse st) ∧
    (finalizeResponse st).content =
      (sortByIndex st.content_blocks).map (fun p => p.2.toGeneric) ∧
    ((sortByIndex st.content_blocks).map Prod.fst).Pairwise (fun a b => a < b) ∧
    (finalizeResponse st).content.length = N := by
  classical
  have hinit : (mapKeys (initAggState.content_blocks)).Nodup := List.nodup_nil
  have hnodupKeys : (mapKeys st.content_blocks).Nodup :=
    keys_nodup_processEventsFrom hok hinit
  have hmem : ∀ k, k ∈ mapKeys st.content_blocks ↔ k ∈ openedIndices events := by
    intro k
    rw [mem_keys_processEventsFrom hok hnt k]
    constructor
    · rintro (hk | hk | hk)
      · exact absurd hk (List.not_mem_nil k)
      · exact hk
      · exact hdeltas k hk
    · exact fun hk => Or.inr (Or.inl hk)
  have hlen : (mapKeys st.content_blocks).length = (openedIndices events).length := by
    have h1 : (mapKeys st.content_blocks).toFinset = (openedIndices events).toFinset := by
      ext k
      simp only [List.mem_toFinset]
      exact hmem k
    calc (mapKeys st.content_blocks).length
        = (mapKeys st.content_blocks).toFinset.card :=
          (List.toFinset_card_of_nodup hnodupKeys).symm
      _ = (openedIndices events).toFinset.card := by rw [h1]
      _ = (openedIndices events).length := List.toFinset_card_of_nodup hnodup
  refine ⟨?_, rfl, pairwise_lt_sortByIndex _ hnodupKeys, ?_⟩
  · unfold AnthropicStreamEvent.process_events
    rw [hok]
  · have h2 : (finalizeResponse st).content.length =
        (sortByIndex st.content_blocks).length := by
      simp [finalizeResponse]
    rw [h2, (sortByIndex_perm st.content_blocks).length_eq]
    have h3 : st.content_blocks.length = (mapKeys st.content_blocks).length := by
      simp [mapKeys]
    rw [h3, hlen, hN]

/-- Witness for C3 at a concrete input: two blocks opened out of order
(index 1 first, then index 0), closed out of order; the aggregated content
has length 2 and is sorted ascending by index. -/
theorem c3_witness :
    AnthropicStreamEvent.process_events (fun _ => .error "unused")
        [AnthropicStreamEvent.contentBlockStart 1 (.text "B"),
         AnthropicStreamEvent.contentBlockStart 0 (.text "A"),
         AnthropicStreamEvent.contentBlockStop 1,
         AnthropicStreamEvent.contentBlockStop 0] =
      .ok (finalizeResponse
        { id := "", model := "", role := .assistant, stop_reason := none,
          stop_sequence := none, usage := ⟨0, 0, 0, 0⟩,
          content_blocks := [(1, .text "B"), (0, .text "A")],
          json_buffers := [] }) ∧
    (finalizeResponse
        { id := "", model := "", role := .assistant, stop_reason := none,
          stop_sequence := none, usage := ⟨0, 0, 0, 0⟩,
          content_blocks := [(1, .text "B"), (0, .text "A")],
          json_buffers := [] }).content =
      (sortByIndex [(1, AnthropicResponseContentBlock.text "B"),
                    (0, AnthropicResponseContentBlock.text "A")]).map
        (fun p => p.2.toGeneric) ∧
    ((sortByIndex [(1, AnthropicResponseContentBlock.text "B"),
                   (0, AnthropicResponseContentBlock.text "A")]).map
        Prod.fst).Pairwise (fun a b => a < b) ∧
    (finalizeResponse
        { id := "", model := "", role := .assistant, stop_reason := none,
          stop_sequence := none, usage := ⟨0, 0, 0, 0⟩,
          content_blocks := [(1, .text "B"), (0, .text "A")],
          json_buffers := [] }).content.length = 2 :=
  c3_content_length_sorted (fun _ => .error "unused")
    [AnthropicStreamEvent.contentBlockStart 1 (.text "B"),
     AnthropicStreamEvent.contentBlockStart 0 (.text "A"),
     AnthropicStreamEvent.contentBlockStop 1,
     AnthropicStreamEvent.contentBlockStop 0]
    { id := "", model := "", role := .assistant, stop_reason := none,
      stop_sequence := none, usage := ⟨0, 0, 0, 0⟩,
      content_blocks := [(1, .text "B"), (0, .text "A")],
      json_buffers := [] }
    2 rfl (by decide) (by decide) rfl (by decide)
    (by
      intro i hi
      have h0 : openedIndices
          [AnthropicStreamEvent.contentBlockStart 1 (.text "B"),
           AnthropicStreamEvent.contentBlockStart 0 (.text "A"),
           AnthropicStreamEvent.contentBlockStop 1,
           AnthropicStreamEvent.contentBlockStop 0] = [1, 0] := rfl
      rw [h0] at hi
      fin_cases hi <;> simp)

end Aria
